import Mathlib

/-!
Verification of the Python-Canvas repository (`src/canvas.py`) against its
natural-language specification.

The module is shallowly embedded: Python objects become Lean structures,
in-place mutation becomes explicit state passing, and code that can raise an
exception returns a `Canvas × Option PyError` pair (the canvas component is
the state of the object when the call returns or raises, so mutations that
happened before an exception remain visible, exactly as in Python).

Python list indexing (`l[i]`, including negative-index wrap-around and
`IndexError`) is modelled by `pyGet` / `pySet` returning `Option`.
-/

/-- Errors a call into the canvas module can raise: `OutOfCanvasBoundError`
and `NotImplementedError` are raised explicitly by the source; `IndexError`
and `ValueError` are raised by Python list indexing and `int()`. -/
inductive PyError where
  | outOfCanvasBound
  | notImplementedError
  | indexError
  | valueError
deriving DecidableEq, Repr

/-- Embeds `canvas.CanvasCellContentType`, the enum of cell content types. -/
inductive CanvasCellContentType where
  | Empty
  | Line
deriving DecidableEq, Repr

/-- A canvas cell is a pair `(content_type, colour)` as stored in
`Canvas.cells`. -/
abbrev Cell := CanvasCellContentType × Char

/-- Embeds `canvas.Point`: `__init__` coerces both coordinates with `int`,
so the fields are integers; `__eq__` is componentwise equality, which is the
derived equality here. -/
structure Point where
  x : Int
  y : Int
deriving DecidableEq, Repr

/-- Embeds `canvas.Line`: a pair of delimiting points, compared
componentwise. -/
structure Line where
  from_point : Point
  to_point : Point
deriving DecidableEq, Repr

/-- Embeds `canvas.Rectangle`: the two corner points given to `__init__`,
compared componentwise. -/
structure Rectangle where
  top_left_point : Point
  bottom_right_point : Point
deriving DecidableEq, Repr

/-- Python list read `l[i]`: a non-negative index reads position `i` when
`i < len(l)`; a negative index wraps to `len(l) + i` when that is in range;
anything else raises `IndexError` (modelled as `none`). -/
def pyGet {α : Type} (l : List α) (i : Int) : Option α :=
  if 0 ≤ i then l.get? i.toNat
  else if 0 ≤ i + l.length then l.get? (i + l.length).toNat
  else none

/-- Python list element assignment `l[i] = v`, with the same index rules as
`pyGet`; `none` models `IndexError`. -/
def pySet {α : Type} (l : List α) (i : Int) (v : α) : Option (List α) :=
  if 0 ≤ i then
    if i.toNat < l.length then some (l.set i.toNat v) else none
  else if 0 ≤ i + l.length then some (l.set (i + l.length).toNat v)
  else none

/-- The read `cells[x][y]` performed throughout `canvas.py`. -/
def readCell (cells : List (List Cell)) (x y : Int) : Option Cell :=
  match pyGet cells x with
  | none => none
  | some row => pyGet row y

/-- The assignment `cells[x][y] = v` performed throughout `canvas.py`:
in Python the row is mutated in place, which the functional model renders by
writing the updated row back at the same index. -/
def writeCell (cells : List (List Cell)) (x y : Int) (v : Cell) :
    Option (List (List Cell)) :=
  match pyGet cells x with
  | none => none
  | some row =>
    match pySet row y v with
    | none => none
    | some row2 => pySet cells x row2

/-- Python `range(a, b)`: the ascending integers `a, a+1, ..., b-1`, empty
when `b ≤ a`. -/
def intRange (a b : Int) : List Int :=
  (List.range (b - a).toNat).map (fun i => a + Int.ofNat i)

namespace Line

/-- Embeds `Line._is_horizontal`: the two endpoints share their
x-coordinate. -/
def is_horizontal' (l : Line) : Bool :=
  decide (l.from_point.x = l.to_point.x)

/-- Embeds `Line._is_vertical`: the two endpoints share their
y-coordinate. -/
def is_vertical' (l : Line) : Bool :=
  decide (l.from_point.y = l.to_point.y)

/-- Embeds `Line.get_points`: for an equal-x line, the points with `y` in
`range(from.y, to.y + 1)`; otherwise for an equal-y line, the points with
`x` in `range(from.x, to.x + 1)`; otherwise `NotImplementedError`. -/
def get_points (l : Line) : Except PyError (List Point) :=
  if l.is_horizontal' then
    Except.ok ((intRange l.from_point.y (l.to_point.y + 1)).map
      (fun y => ⟨l.from_point.x, y⟩))
  else if l.is_vertical' then
    Except.ok ((intRange l.from_point.x (l.to_point.x + 1)).map
      (fun x => ⟨x, l.from_point.y⟩))
  else Except.error PyError.notImplementedError

end Line

namespace Rectangle

/-- Embeds `Rectangle.get_lines`: derives the two remaining corners and
returns the four border lines in the source's fixed order. -/
def get_lines (r : Rectangle) : List Line :=
  let top_right_point : Point := ⟨r.bottom_right_point.x, r.top_left_point.y⟩
  let bottom_left_point : Point := ⟨r.top_left_point.x, r.bottom_right_point.y⟩
  [ ⟨r.top_left_point, top_right_point⟩,
    ⟨r.top_left_point, bottom_left_point⟩,
    ⟨top_right_point, r.bottom_right_point⟩,
    ⟨bottom_left_point, r.bottom_right_point⟩ ]

end Rectangle

/-- A Python value passed as a constructor argument: an integer or a
string.  (Other argument types such as lists also fail `int()` coercion,
with `TypeError` instead of `ValueError`; they behave like non-numeric
strings for the claims considered here and are not modelled.) -/
inductive PyVal where
  | int (n : Int)
  | str (s : String)
deriving DecidableEq, Repr

/-- Value of a digit list read in base 10. -/
def digitsValue (l : List Char) : Nat :=
  l.foldl (fun acc c => 10 * acc + (c.toNat - '0'.toNat)) 0

/-- Surrounding-whitespace stripping over the character list. -/
def trimChars (l : List Char) : List Char :=
  ((l.dropWhile Char.isWhitespace).reverse.dropWhile Char.isWhitespace).reverse

/-- Modelled from the Python built-in `int()` applied to a string: after
stripping surrounding whitespace, an optional sign followed by at least one
ASCII digit parses to an integer; anything else raises `ValueError`
(`none`).  (Underscore separators and non-ASCII digits, which real Python
also accepts, are not modelled.) -/
def py_int_of_string (s : String) : Option Int :=
  match trimChars s.toList with
  | '-' :: rest =>
    if rest ≠ [] ∧ rest.all Char.isDigit then some (-(digitsValue rest : Int)) else none
  | '+' :: rest =>
    if rest ≠ [] ∧ rest.all Char.isDigit then some (digitsValue rest : Int) else none
  | l =>
    if l ≠ [] ∧ l.all Char.isDigit then some (digitsValue l : Int) else none

/-- Modelled from the Python built-in `int()`: the identity on integers;
string parsing as in `py_int_of_string`. -/
def py_int (v : PyVal) : Except PyError Int :=
  match v with
  | .int n => Except.ok n
  | .str s =>
    match py_int_of_string s with
    | some n => Except.ok n
    | none => Except.error PyError.valueError

/-- Embeds `canvas.Canvas`: fixed dimensions, the live cell array, and the
stack of saved previous cell arrays (`_previous_states`, most recent
last). -/
structure Canvas where
  width : Int
  height : Int
  cells : List (List Cell)
  previous_states : List (List (List Cell))
deriving DecidableEq, Repr

namespace Canvas

/-- Embeds `Canvas.__init__` after the `int` coercions: the cell array is
built as `[[(Empty, ' ') for i in range(width)] for j in range(height)]`,
i.e. `height` inner lists of `width` cells each. -/
def init (w h : Int) : Canvas :=
  { width := w
    height := h
    cells := List.replicate h.toNat
      (List.replicate w.toNat (CanvasCellContentType.Empty, ' '))
    previous_states := [] }

end Canvas

/-- The body of `Canvas._point_is_out_of_bound`, parametrised by the
canvas dimensions (the method only reads `self.width` / `self.height`). -/
def point_out_of_bound (w h : Int) (p : Point) : Bool :=
  (decide (p.x < 0) || decide (p.x ≥ w)) ||
  (decide (p.y < 0) || decide (p.y ≥ h))

namespace Canvas

/-- Embeds `Canvas.__init__` for arbitrary Python arguments: the first two
statements coerce `width` then `height` with `int()`, so a failing coercion
raises before any field is assigned and no canvas is produced. -/
def init_py (w h : PyVal) : Except PyError Canvas :=
  match py_int w with
  | Except.error e => Except.error e
  | Except.ok wi =>
    match py_int h with
    | Except.error e => Except.error e
    | Except.ok hi => Except.ok (init wi hi)

/-- Embeds `Canvas._point_is_out_of_bound`. -/
def point_is_out_of_bound' (c : Canvas) (p : Point) : Bool :=
  point_out_of_bound c.width c.height p

/-- Embeds `Canvas._save_state`: append a deep copy of the live cell array
to `_previous_states` (deep copy is the identity in the value model). -/
def save_state' (c : Canvas) : Canvas :=
  { c with previous_states := c.previous_states ++ [c.cells] }

/-- Embeds `Canvas.undo`: if any previous state exists, pop the most recent
one and install it as the live cell array; otherwise do nothing. -/
def undo (c : Canvas) : Canvas :=
  match c.previous_states.getLast? with
  | none => c
  | some s => { c with cells := s, previous_states := c.previous_states.dropLast }

/-- Embeds the body of `Canvas._draw_line`'s loop: draw each point in turn
(`Canvas._draw_point` writes `(Line, 'x')` at `cells[p.x][p.y]`); a failed
write raises `IndexError`, keeping the cells drawn so far. -/
def draw_points (cells : List (List Cell)) : List Point → List (List Cell) × Option PyError
  | [] => (cells, none)
  | p :: ps =>
    match writeCell cells p.x p.y (CanvasCellContentType.Line, 'x') with
    | none => (cells, some PyError.indexError)
    | some cells1 => draw_points cells1 ps

/-- Embeds `Canvas._draw_line`: obtain the line's points (which may raise
`NotImplementedError`) and draw each of them. -/
def draw_line' (cells : List (List Cell)) (l : Line) :
    List (List Cell) × Option PyError :=
  match l.get_points with
  | Except.error e => (cells, some e)
  | Except.ok pts => draw_points cells pts

/-- Embeds `Canvas.draw_line`: bounds-check both endpoints, then save the
state, then draw. -/
def draw_line (c : Canvas) (l : Line) : Canvas × Option PyError :=
  if c.point_is_out_of_bound' l.from_point || c.point_is_out_of_bound' l.to_point then
    (c, some PyError.outOfCanvasBound)
  else
    let c1 := c.save_state'
    let r := draw_line' c1.cells l
    ({ c1 with cells := r.1 }, r.2)

/-- Embeds the `for line in rectangle.get_lines()` loop of
`Canvas.draw_rectangle`: draw each line, stopping at the first raised
error. -/
def draw_lines (cells : List (List Cell)) : List Line → List (List Cell) × Option PyError
  | [] => (cells, none)
  | l :: ls =>
    let r := draw_line' cells l
    match r.2 with
    | some e => (r.1, some e)
    | none => draw_lines r.1 ls

/-- Embeds `Canvas.draw_rectangle`: bounds-check the two supplied corners,
then save the state, then draw the four border lines. -/
def draw_rectangle (c : Canvas) (r : Rectangle) : Canvas × Option PyError :=
  if c.point_is_out_of_bound' r.top_left_point ||
      c.point_is_out_of_bound' r.bottom_right_point then
    (c, some PyError.outOfCanvasBound)
  else
    let c1 := c.save_state'
    let res := draw_lines c1.cells r.get_lines
    ({ c1 with cells := res.1 }, res.2)

end Canvas

/-- Embeds `can_process_cell`, the local predicate of `Canvas._bucket_fill`:
the cell is not yet processed, not already enqueued, and not out of the
canvas bounds. -/
def can_process_cell (w h : Int) (processed to_process : List Point) (p : Point) : Bool :=
  !(decide (p ∈ processed)) && !(decide (p ∈ to_process)) && !(point_out_of_bound w h p)

/-- The finite set of points inside the `[0,w) x [0,h)` canvas bounds, used
only for the termination measure of the flood-fill loop. -/
def boundPoints (w h : Int) : Finset Point :=
  (Finset.range w.toNat ×ˢ Finset.range h.toNat).image
    (fun q => ⟨(q.1 : Int), (q.2 : Int)⟩)

lemma mem_boundPoints {w h : Int} {p : Point} :
    p ∈ boundPoints w h ↔ 0 ≤ p.x ∧ p.x < w ∧ 0 ≤ p.y ∧ p.y < h := by
  obtain ⟨px, py⟩ := p
  unfold boundPoints
  simp only [Finset.mem_image, Finset.mem_product, Finset.mem_range, Prod.exists,
    Point.mk.injEq]
  constructor
  · rintro ⟨a, b, ⟨ha, hb⟩, hax, hby⟩
    omega
  · rintro ⟨h1, h2, h3, h4⟩
    exact ⟨px.toNat, py.toNat, ⟨by omega, by omega⟩, by omega, by omega⟩

lemma point_out_of_bound_eq_false {w h : Int} {p : Point} :
    point_out_of_bound w h p = false ↔ 0 ≤ p.x ∧ p.x < w ∧ 0 ≤ p.y ∧ p.y < h := by
  unfold point_out_of_bound
  simp only [Bool.or_eq_false_iff, decide_eq_false_iff_not, not_lt, ge_iff_le, not_le]
  omega

/-- Embeds `processed.add(current_point)` on the Python set `processed`,
represented as a duplicate-free list. -/
def insert_point (processed : List Point) (p : Point) : List Point :=
  if p ∈ processed then processed else p :: processed

/-- Embeds the guarded `to_process.insert(0, neighbour)` of
`Canvas._bucket_fill`: enqueue the neighbour at the front exactly when
`can_process_cell` allows it. -/
def enqueue_if (w h : Int) (processed tp : List Point) (n : Point) : List Point :=
  if can_process_cell w h processed tp n = true then n :: tp else tp

/-- Termination measure for the flood-fill worklist loop: the number of
in-bounds points in neither `processed` nor `to_process`, plus the length of
`to_process`. -/
def fillMeasure (w h : Int) (processed to_process : List Point) : Nat :=
  ((boundPoints w h).filter (fun p => p ∉ processed ∧ p ∉ to_process)).card
    + to_process.length

lemma fillMeasure_enqueue (w h : Int) (processed tp : List Point) (n : Point)
    (hc : can_process_cell w h processed tp n = true) :
    fillMeasure w h processed (n :: tp) = fillMeasure w h processed tp := by
  unfold can_process_cell at hc
  simp only [Bool.and_eq_true, Bool.not_eq_true', decide_eq_false_iff_not] at hc
  obtain ⟨⟨hp, ht⟩, hb⟩ := hc
  have hnb : n ∈ boundPoints w h :=
    mem_boundPoints.mpr (point_out_of_bound_eq_false.mp hb)
  have hnmem : n ∈ (boundPoints w h).filter (fun p => p ∉ processed ∧ p ∉ tp) :=
    Finset.mem_filter.mpr ⟨hnb, hp, ht⟩
  have hset : (boundPoints w h).filter (fun p => p ∉ processed ∧ p ∉ n :: tp)
      = ((boundPoints w h).filter (fun p => p ∉ processed ∧ p ∉ tp)).erase n := by
    ext q
    simp only [Finset.mem_filter, Finset.mem_erase, List.mem_cons, not_or]
    tauto
  have hpos : 0 < ((boundPoints w h).filter (fun p => p ∉ processed ∧ p ∉ tp)).card :=
    Finset.card_pos.mpr ⟨n, hnmem⟩
  unfold fillMeasure
  rw [hset, Finset.card_erase_of_mem hnmem, List.length_cons]
  omega

lemma fillMeasure_enqueue_le (w h : Int) (processed tp : List Point) (n : Point) :
    fillMeasure w h processed (enqueue_if w h processed tp n)
      ≤ fillMeasure w h processed tp := by
  unfold enqueue_if
  split
  · next hc => exact le_of_eq (fillMeasure_enqueue w h processed tp n hc)
  · exact le_refl _

lemma fillMeasure_pop (w h : Int) (processed tp : List Point) (current : Point)
    (hl : tp.getLast? = some current) :
    fillMeasure w h (insert_point processed current) tp.dropLast
      < fillMeasure w h processed tp := by
  have htp : tp.dropLast ++ [current] = tp := List.dropLast_append_getLast? current hl
  have hlen : tp.dropLast.length + 1 = tp.length := by
    conv_rhs => rw [← htp]
    simp
  have hsub : (boundPoints w h).filter
      (fun p => p ∉ insert_point processed current ∧ p ∉ tp.dropLast)
      ⊆ (boundPoints w h).filter (fun p => p ∉ processed ∧ p ∉ tp) := by
    intro q hq
    simp only [Finset.mem_filter, insert_point] at hq ⊢
    obtain ⟨hqb, hq1, hq2⟩ := hq
    refine ⟨hqb, ?_, ?_⟩
    · by_cases hcur : current ∈ processed
      · rw [if_pos hcur] at hq1; exact hq1
      · rw [if_neg hcur] at hq1; exact fun hmem => hq1 (List.mem_cons_of_mem _ hmem)
    · intro hqtp
      rw [← htp, List.mem_append, List.mem_singleton] at hqtp
      rcases hqtp with hqd | hqc
      · exact hq2 hqd
      · subst hqc
        by_cases hcur : q ∈ processed
        · rw [if_pos hcur] at hq1; exact hq1 hcur
        · rw [if_neg hcur] at hq1; exact hq1 (List.mem_cons_self _ _)
  have hcard := Finset.card_le_card hsub
  unfold fillMeasure
  omega

/-- Embeds the `while to_process != []` loop of `Canvas._bucket_fill`.
The state that the Python loop mutates is threaded explicitly: the live cell
array, the `processed` set (as a duplicate-free list) and the `to_process`
worklist.  `pop()` takes the last element; `insert(0, ...)` is `cons`.  A
failed cell access raises `IndexError`, keeping the cells painted so far. -/
def bfLoop (w h : Int) (content_type_to_fill : CanvasCellContentType) (colour : Char)
    (reset_content_type : Bool) (cells : List (List Cell))
    (processed to_process : List Point) : List (List Cell) × Option PyError :=
  match hl : to_process.getLast? with
  | none => (cells, none)
  | some current =>
    let tp0 := to_process.dropLast
    let processed1 := insert_point processed current
    match readCell cells current.x current.y with
    | none => (cells, some PyError.indexError)
    | some cell =>
      if cell.1 = content_type_to_fill then
        match writeCell cells current.x current.y
            (if reset_content_type then (CanvasCellContentType.Empty, colour)
             else (content_type_to_fill, colour)) with
        | none => (cells, some PyError.indexError)
        | some cells1 =>
          let tp1 := enqueue_if w h processed1 tp0 ⟨current.x - 1, current.y⟩
          let tp2 := enqueue_if w h processed1 tp1 ⟨current.x + 1, current.y⟩
          let tp3 := enqueue_if w h processed1 tp2 ⟨current.x, current.y - 1⟩
          let tp4 := enqueue_if w h processed1 tp3 ⟨current.x, current.y + 1⟩
          bfLoop w h content_type_to_fill colour reset_content_type cells1 processed1 tp4
      else
        bfLoop w h content_type_to_fill colour reset_content_type cells processed1 tp0
termination_by fillMeasure w h processed to_process
decreasing_by
  · calc fillMeasure w h (insert_point processed current)
          (enqueue_if w h (insert_point processed current)
            (enqueue_if w h (insert_point processed current)
              (enqueue_if w h (insert_point processed current)
                (enqueue_if w h (insert_point processed current) to_process.dropLast
                  ⟨current.x - 1, current.y⟩)
                ⟨current.x + 1, current.y⟩)
              ⟨current.x, current.y - 1⟩)
            ⟨current.x, current.y + 1⟩)
        ≤ fillMeasure w h (insert_point processed current)
            (enqueue_if w h (insert_point processed current)
              (enqueue_if w h (insert_point processed current)
                (enqueue_if w h (insert_point processed current) to_process.dropLast
                  ⟨current.x - 1, current.y⟩)
                ⟨current.x + 1, current.y⟩)
              ⟨current.x, current.y - 1⟩) := fillMeasure_enqueue_le w h _ _ _
      _ ≤ fillMeasure w h (insert_point processed current)
            (enqueue_if w h (insert_point processed current)
              (enqueue_if w h (insert_point processed current) to_process.dropLast
                ⟨current.x - 1, current.y⟩)
              ⟨current.x + 1, current.y⟩) := fillMeasure_enqueue_le w h _ _ _
      _ ≤ fillMeasure w h (insert_point processed current)
            (enqueue_if w h (insert_point processed current) to_process.dropLast
              ⟨current.x - 1, current.y⟩) := fillMeasure_enqueue_le w h _ _ _
      _ ≤ fillMeasure w h (insert_point processed current) to_process.dropLast :=
            fillMeasure_enqueue_le w h _ _ _
      _ < fillMeasure w h processed to_process :=
            fillMeasure_pop w h processed to_process current hl
  · exact fillMeasure_pop w h processed to_process current hl

namespace Canvas

/-- Embeds `Canvas._bucket_fill`: read the content type of the start cell
(which may raise `IndexError`), then run the worklist loop with `processed`
empty and `to_process = [point]`.  The method only reads `self.width` and
`self.height` besides mutating `self.cells`, so the state is threaded as the
cell array. -/
def bucket_fill' (w h : Int) (cells : List (List Cell)) (point : Point)
    (colour : Char) (reset_content_type : Bool) : List (List Cell) × Option PyError :=
  match readCell cells point.x point.y with
  | none => (cells, some PyError.indexError)
  | some cell => bfLoop w h cell.1 colour reset_content_type cells [] [point]

/-- Embeds `Canvas.bucket_fill`: bounds-check the start point, then save the
state, then flood-fill with the given colour. -/
def bucket_fill (c : Canvas) (point : Point) (colour : Char) : Canvas × Option PyError :=
  if c.point_is_out_of_bound' point then (c, some PyError.outOfCanvasBound)
  else
    let c1 := c.save_state'
    let r := bucket_fill' c1.width c1.height c1.cells point colour false
    ({ c1 with cells := r.1 }, r.2)

/-- Embeds `Canvas.delete`: bounds-check the point, then save the state,
then flood-fill with a space while resetting the content type to `Empty`. -/
def delete (c : Canvas) (point : Point) : Canvas × Option PyError :=
  if c.point_is_out_of_bound' point then (c, some PyError.outOfCanvasBound)
  else
    let c1 := c.save_state'
    let r := bucket_fill' c1.width c1.height c1.cells point ' ' true
    ({ c1 with cells := r.1 }, r.2)

end Canvas

/-! ## Vocabulary for the claim statements -/

/-- The in-bounds predicate of the specification: the point lies in
`[0,W) x [0,H)` for the canvas's dimensions. -/
def inCanvasBounds (c : Canvas) (p : Point) : Prop :=
  0 ≤ p.x ∧ p.x < c.width ∧ 0 ≤ p.y ∧ p.y < c.height

instance (c : Canvas) (p : Point) : Decidable (inCanvasBounds c p) := by
  unfold inCanvasBounds; infer_instance

lemma point_is_out_of_bound_iff (c : Canvas) (p : Point) :
    c.point_is_out_of_bound' p = true ↔ ¬ inCanvasBounds c p := by
  unfold Canvas.point_is_out_of_bound' point_out_of_bound inCanvasBounds
  simp only [Bool.or_eq_true, decide_eq_true_eq, ge_iff_le]
  omega

lemma point_is_out_of_bound_eq_false_iff (c : Canvas) (p : Point) :
    c.point_is_out_of_bound' p = false ↔ inCanvasBounds c p := by
  rw [← Bool.not_eq_true, point_is_out_of_bound_iff, not_not]

lemma intRange_length (a b : Int) : (intRange a b).length = (b - a).toNat := by
  unfold intRange
  rw [List.length_map, List.length_range]

lemma intRange_get (a b : Int) (i : Nat) (hi : i < (intRange a b).length) :
    (intRange a b).get ⟨i, hi⟩ = a + (i : Int) := by
  unfold intRange
  simp only [List.get_eq_getElem, List.getElem_map, List.getElem_range, Int.ofNat_eq_coe]

lemma mem_intRange {a b x : Int} : x ∈ intRange a b ↔ a ≤ x ∧ x < b := by
  unfold intRange
  rw [List.mem_map]
  constructor
  · rintro ⟨i, hi, rfl⟩
    rw [List.mem_range] at hi
    simp only [Int.ofNat_eq_coe]
    omega
  · rintro ⟨h1, h2⟩
    refine ⟨(x - a).toNat, ?_, ?_⟩
    · rw [List.mem_range]
      omega
    · simp only [Int.ofNat_eq_coe]
      omega

/-! ## Claim theorems -/

/-- C7: `Rectangle.get_lines` returns exactly four Lines in the fixed order
top_left→top_right, top_left→bottom_left, top_right→bottom_right,
bottom_left→bottom_right, where top_right = (br.x, tl.y) and bottom_left =
(tl.x, br.y); on corners tl=(5,1), br=(1,5) this is the literal list
(5,1)→(1,1), (5,1)→(5,5), (1,1)→(1,5), (5,5)→(1,5). -/
theorem c7_rectangle_lines_fixed_order (r : Rectangle) :
    r.get_lines =
      [ ⟨r.top_left_point, ⟨r.bottom_right_point.x, r.top_left_point.y⟩⟩,
        ⟨r.top_left_point, ⟨r.top_left_point.x, r.bottom_right_point.y⟩⟩,
        ⟨⟨r.bottom_right_point.x, r.top_left_point.y⟩, r.bottom_right_point⟩,
        ⟨⟨r.top_left_point.x, r.bottom_right_point.y⟩, r.bottom_right_point⟩ ] ∧
    Rectangle.get_lines ⟨⟨5, 1⟩, ⟨1, 5⟩⟩ =
      [ ⟨⟨5, 1⟩, ⟨1, 1⟩⟩, ⟨⟨5, 1⟩, ⟨5, 5⟩⟩, ⟨⟨1, 1⟩, ⟨1, 5⟩⟩, ⟨⟨5, 5⟩, ⟨1, 5⟩⟩ ] :=
  ⟨rfl, rfl⟩

/-- C6: constructing a Line never fails or validates (the constructor just
stores the two points), and the "not supported" error is raised exactly when
`get_points` is called on a line whose endpoints differ in both
coordinates - lazily at point-sequence generation, never at
construction. -/
theorem c6_line_error_lazy_at_get_points (p q : Point) :
    ((Line.mk p q).from_point = p ∧ (Line.mk p q).to_point = q) ∧
    ((Line.mk p q).get_points = Except.error PyError.notImplementedError ↔
      (p.x ≠ q.x ∧ p.y ≠ q.y)) ∧
    ((∃ pts, (Line.mk p q).get_points = Except.ok pts) ↔ (p.x = q.x ∨ p.y = q.y)) := by
  refine ⟨⟨rfl, rfl⟩, ?_, ?_⟩ <;>
  · unfold Line.get_points Line.is_horizontal' Line.is_vertical'
    by_cases hx : p.x = q.x <;> by_cases hy : p.y = q.y <;> simp [hx, hy]

lemma range_points_spec (a b : Int) (f : Int → Point) :
    (a ≤ b → ((intRange a (b + 1)).map f).length = (b - a).toNat + 1) ∧
    (b < a → (intRange a (b + 1)).map f = []) ∧
    ∀ i : Fin ((intRange a (b + 1)).map f).length,
      ((intRange a (b + 1)).map f).get i = f (a + (i : Int)) := by
  refine ⟨?_, ?_, ?_⟩
  · intro h
    rw [List.length_map, intRange_length]
    omega
  · intro h
    have hlen : ((intRange a (b + 1)).map f).length = 0 := by
      rw [List.length_map, intRange_length]
      omega
    exact List.eq_nil_of_length_eq_zero hlen
  · intro i
    have hi : (i : Nat) < (intRange a (b + 1)).length :=
      lt_of_lt_of_eq i.isLt (by rw [List.length_map])
    simp only [List.get_eq_getElem, List.getElem_map]
    congr 1
    exact intRange_get a (b + 1) i hi

/-- C5: for a Line with equal endpoint x-coordinates, `get_points` returns
the inclusive ascending sequence (from.x, from.y + i): length
(to.y - from.y) + 1 when from.y ≤ to.y, and the empty sequence when
from.y > to.y (the range is never reversed); symmetrically, for equal
endpoint y-coordinates it steps x ascending from from.x to to.x. -/
theorem c5_get_points_axis_aligned (l : Line) :
    (l.from_point.x = l.to_point.x →
      ∃ pts, l.get_points = Except.ok pts ∧
        (l.from_point.y ≤ l.to_point.y →
          pts.length = (l.to_point.y - l.from_point.y).toNat + 1) ∧
        (l.to_point.y < l.from_point.y → pts = []) ∧
        ∀ i : Fin pts.length,
          pts.get i = ⟨l.from_point.x, l.from_point.y + (i : Int)⟩) ∧
    (l.from_point.y = l.to_point.y →
      ∃ pts, l.get_points = Except.ok pts ∧
        (l.from_point.x ≤ l.to_point.x →
          pts.length = (l.to_point.x - l.from_point.x).toNat + 1) ∧
        (l.to_point.x < l.from_point.x → pts = []) ∧
        ∀ i : Fin pts.length,
          pts.get i = ⟨l.from_point.x + (i : Int), l.from_point.y⟩) := by
  constructor
  · intro hx
    have hb : l.is_horizontal' = true := by
      unfold Line.is_horizontal'
      exact decide_eq_true hx
    refine ⟨_, by rw [Line.get_points, if_pos hb], ?_⟩
    exact range_points_spec l.from_point.y l.to_point.y _
  · intro hy
    by_cases hx : l.from_point.x = l.to_point.x
    · have hb : l.is_horizontal' = true := by
        unfold Line.is_horizontal'
        exact decide_eq_true hx
      refine ⟨_, by rw [Line.get_points, if_pos hb], ?_, ?_, ?_⟩
      · intro _
        rw [List.length_map, intRange_length]
        omega
      · intro hlt
        exact absurd hx (by omega)
      · intro i
        have hlen : (List.map (fun y => Point.mk l.from_point.x y)
            (intRange l.from_point.y (l.to_point.y + 1))).length = 1 := by
          rw [List.length_map, intRange_length]
          omega
        have hi0 : (i : Nat) = 0 := by
          have := i.isLt
          omega
        rw [(range_points_spec l.from_point.y l.to_point.y _).2.2 i]
        simp only [Point.mk.injEq]
        constructor <;> omega
    · have hb : l.is_horizontal' = false := by
        unfold Line.is_horizontal'
        exact decide_eq_false hx
      have hbv : l.is_vertical' = true := by
        unfold Line.is_vertical'
        exact decide_eq_true hy
      refine ⟨_, by rw [Line.get_points, if_neg (by simp [hb]), if_pos hbv], ?_⟩
      exact range_points_spec l.from_point.x l.to_point.x _

/-- C1 (evidence of the constructor bug): for width 2 and height 3 the
claim asserts a 2-column array of 3 cells each with every `cells[x][y]`,
0 ≤ x < 2, 0 ≤ y < 3, valid; the constructor actually builds 3 inner lists
of 2 cells each, so the in-claimed-range access `cells[0][2]` raises
`IndexError` (reads `none`), while the cells that do exist are all
`(Empty, ' ')`. -/
theorem c1_cells_array_transposed :
    (Canvas.init 2 3).cells.length = 3 ∧
    (∀ row ∈ (Canvas.init 2 3).cells, row.length = 2) ∧
    readCell (Canvas.init 2 3).cells 0 2 = none ∧
    readCell (Canvas.init 2 3).cells 0 1 = some (CanvasCellContentType.Empty, ' ') := by
  decide

/-- C4 (evidence of the constructor bug reaching bucket_fill): on a canvas
of width 2 and height 1 the point (1, 0) is inside `[0,W)x[0,H)`, yet
`bucket_fill` raises `IndexError` on its very first cell read (the cell
array has only one inner list), after having pushed the snapshot - instead
of painting the 4-connected region the claim describes. -/
theorem c4_bucket_fill_index_error_in_bounds :
    inCanvasBounds (Canvas.init 2 1) ⟨1, 0⟩ ∧
    Canvas.bucket_fill (Canvas.init 2 1) ⟨1, 0⟩ 'o' =
      ({ width := 2, height := 1,
         cells := [[(CanvasCellContentType.Empty, ' '), (CanvasCellContentType.Empty, ' ')]],
         previous_states :=
           [[[(CanvasCellContentType.Empty, ' '), (CanvasCellContentType.Empty, ' ')]]] },
       some PyError.indexError) := by
  exact ⟨by decide, rfl⟩

/-- C2: each of draw_line, draw_rectangle, bucket_fill and delete raises
OutOfCanvasBound when any of its checked points lies outside
`[0,W)x[0,H)`, and in that case returns the canvas - cell array and
snapshot stack - completely unchanged (validation precedes the snapshot
push and the mutation). -/
theorem c2_out_of_bounds_atomic_rejection (c : Canvas) :
    (∀ l : Line, (¬ inCanvasBounds c l.from_point ∨ ¬ inCanvasBounds c l.to_point) →
      c.draw_line l = (c, some PyError.outOfCanvasBound)) ∧
    (∀ r : Rectangle,
      (¬ inCanvasBounds c r.top_left_point ∨ ¬ inCanvasBounds c r.bottom_right_point) →
      c.draw_rectangle r = (c, some PyError.outOfCanvasBound)) ∧
    (∀ (p : Point) (colour : Char), ¬ inCanvasBounds c p →
      c.bucket_fill p colour = (c, some PyError.outOfCanvasBound)) ∧
    (∀ p : Point, ¬ inCanvasBounds c p →
      c.delete p = (c, some PyError.outOfCanvasBound)) := by
  refine ⟨?_, ?_, ?_, ?_⟩
  · intro l hl
    have hb : (c.point_is_out_of_bound' l.from_point ||
        c.point_is_out_of_bound' l.to_point) = true := by
      rw [Bool.or_eq_true]
      rcases hl with h | h
      · exact Or.inl ((point_is_out_of_bound_iff c _).mpr h)
      · exact Or.inr ((point_is_out_of_bound_iff c _).mpr h)
    rw [Canvas.draw_line, if_pos hb]
  · intro r hr
    have hb : (c.point_is_out_of_bound' r.top_left_point ||
        c.point_is_out_of_bound' r.bottom_right_point) = true := by
      rw [Bool.or_eq_true]
      rcases hr with h | h
      · exact Or.inl ((point_is_out_of_bound_iff c _).mpr h)
      · exact Or.inr ((point_is_out_of_bound_iff c _).mpr h)
    rw [Canvas.draw_rectangle, if_pos hb]
  · intro p colour hp
    rw [Canvas.bucket_fill, if_pos ((point_is_out_of_bound_iff c p).mpr hp)]
  · intro p hp
    rw [Canvas.delete, if_pos ((point_is_out_of_bound_iff c p).mpr hp)]

/-- Witness for C2: concrete out-of-bounds calls of all four operations on
a 2x2 canvas are rejected with the canvas unchanged. -/
theorem c2_witness :
    Canvas.draw_line (Canvas.init 2 2) ⟨⟨0, 0⟩, ⟨5, 0⟩⟩ =
      (Canvas.init 2 2, some PyError.outOfCanvasBound) ∧
    Canvas.draw_rectangle (Canvas.init 2 2) ⟨⟨0, 0⟩, ⟨5, 5⟩⟩ =
      (Canvas.init 2 2, some PyError.outOfCanvasBound) ∧
    Canvas.bucket_fill (Canvas.init 2 2) ⟨2, 0⟩ 'o' =
      (Canvas.init 2 2, some PyError.outOfCanvasBound) ∧
    Canvas.delete (Canvas.init 2 2) ⟨0, -1⟩ =
      (Canvas.init 2 2, some PyError.outOfCanvasBound) := by
  obtain ⟨h1, h2, h3, h4⟩ := c2_out_of_bounds_atomic_rejection (Canvas.init 2 2)
  exact ⟨h1 _ (by decide), h2 _ (by decide), h3 _ 'o' (by decide), h4 _ (by decide)⟩

lemma undo_save_state (c : Canvas) (cs : List (List Cell)) :
    Canvas.undo ⟨c.width, c.height, cs, c.previous_states ++ [c.cells]⟩ = c := by
  unfold Canvas.undo
  simp only [List.getLast?_concat, List.dropLast_concat]

/-- C3: after any single successful mutating call (draw_line,
draw_rectangle, bucket_fill, delete), `undo` restores the canvas - in
particular its cell array - exactly to the prior state; `undo` on a canvas
with empty snapshot history changes nothing (and raises no error: it is a
total function). -/
theorem c3_undo_restores_prior_cells (c : Canvas) :
    (∀ (l : Line) (c' : Canvas), c.draw_line l = (c', none) → c'.undo = c) ∧
    (∀ (r : Rectangle) (c' : Canvas), c.draw_rectangle r = (c', none) → c'.undo = c) ∧
    (∀ (p : Point) (colour : Char) (c' : Canvas),
      c.bucket_fill p colour = (c', none) → c'.undo = c) ∧
    (∀ (p : Point) (c' : Canvas), c.delete p = (c', none) → c'.undo = c) ∧
    (c.previous_states = [] → c.undo = c) := by
  refine ⟨?_, ?_, ?_, ?_, ?_⟩
  · intro l c' hcall
    rw [Canvas.draw_line] at hcall
    split at hcall
    · exact absurd (congrArg Prod.snd hcall) (by simp)
    · have hfst := congrArg Prod.fst hcall
      simp only at hfst
      subst hfst
      exact undo_save_state c _
  · intro r c' hcall
    rw [Canvas.draw_rectangle] at hcall
    split at hcall
    · exact absurd (congrArg Prod.snd hcall) (by simp)
    · have hfst := congrArg Prod.fst hcall
      simp only at hfst
      subst hfst
      exact undo_save_state c _
  · intro p colour c' hcall
    rw [Canvas.bucket_fill] at hcall
    split at hcall
    · exact absurd (congrArg Prod.snd hcall) (by simp)
    · have hfst := congrArg Prod.fst hcall
      simp only at hfst
      subst hfst
      exact undo_save_state c _
  · intro p c' hcall
    rw [Canvas.delete] at hcall
    split at hcall
    · exact absurd (congrArg Prod.snd hcall) (by simp)
    · have hfst := congrArg Prod.fst hcall
      simp only at hfst
      subst hfst
      exact undo_save_state c _
  · intro h
    unfold Canvas.undo
    rw [h]
    rfl

/-- Witness for C3: on a 1x1 canvas each of the four mutating operations
succeeds, and `undo` afterwards restores the freshly constructed canvas;
`undo` on the fresh canvas itself is a no-op. -/
theorem c3_witness :
    Canvas.undo (Canvas.draw_line (Canvas.init 1 1) ⟨⟨0, 0⟩, ⟨0, 0⟩⟩).1 = Canvas.init 1 1 ∧
    Canvas.undo (Canvas.draw_rectangle (Canvas.init 1 1) ⟨⟨0, 0⟩, ⟨0, 0⟩⟩).1 = Canvas.init 1 1 ∧
    Canvas.undo (Canvas.bucket_fill (Canvas.init 1 1) ⟨0, 0⟩ 'o').1 = Canvas.init 1 1 ∧
    Canvas.undo (Canvas.delete (Canvas.init 1 1) ⟨0, 0⟩).1 = Canvas.init 1 1 ∧
    Canvas.undo (Canvas.init 1 1) = Canvas.init 1 1 := by
  obtain ⟨h1, h2, h3, h4, h5⟩ := c3_undo_restores_prior_cells (Canvas.init 1 1)
  have hb : Canvas.bucket_fill (Canvas.init 1 1) ⟨0, 0⟩ 'o' =
      (⟨1, 1, [[(CanvasCellContentType.Empty, 'o')]],
        [[[(CanvasCellContentType.Empty, ' ')]]]⟩, none) := by
    simp [Canvas.bucket_fill, Canvas.point_is_out_of_bound', point_out_of_bound,
      Canvas.save_state', Canvas.bucket_fill', Canvas.init, readCell, pyGet, bfLoop,
      insert_point, enqueue_if, can_process_cell, writeCell, pySet]
  have hd : Canvas.delete (Canvas.init 1 1) ⟨0, 0⟩ =
      (⟨1, 1, [[(CanvasCellContentType.Empty, ' ')]],
        [[[(CanvasCellContentType.Empty, ' ')]]]⟩, none) := by
    simp [Canvas.delete, Canvas.point_is_out_of_bound', point_out_of_bound,
      Canvas.save_state', Canvas.bucket_fill', Canvas.init, readCell, pyGet, bfLoop,
      insert_point, enqueue_if, can_process_cell, writeCell, pySet]
  have hl : Canvas.draw_line (Canvas.init 1 1) ⟨⟨0, 0⟩, ⟨0, 0⟩⟩ =
      (⟨1, 1, [[(CanvasCellContentType.Line, 'x')]],
        [[[(CanvasCellContentType.Empty, ' ')]]]⟩, none) := by decide
  have hr : Canvas.draw_rectangle (Canvas.init 1 1) ⟨⟨0, 0⟩, ⟨0, 0⟩⟩ =
      (⟨1, 1, [[(CanvasCellContentType.Line, 'x')]],
        [[[(CanvasCellContentType.Empty, ' ')]]]⟩, none) := by decide
  refine ⟨?_, ?_, ?_, ?_, h5 rfl⟩
  · rw [hl]
    exact h1 _ _ hl
  · rw [hr]
    exact h2 _ _ hr
  · rw [hb]
    exact h3 _ 'o' _ hb
  · rw [hd]
    exact h4 _ _ hd

/-- C10: a draw_line call whose two endpoints are in-bounds but differ in
both coordinates raises the geometry error only after the snapshot push:
the cell array is unchanged but the snapshot stack has grown by one copy of
it, and a later `undo` consumes exactly that entry, restoring the original
canvas. -/
theorem c10_diagonal_line_pushes_snapshot (c : Canvas) (l : Line)
    (hf : inCanvasBounds c l.from_point) (ht : inCanvasBounds c l.to_point)
    (hx : l.from_point.x ≠ l.to_point.x) (hy : l.from_point.y ≠ l.to_point.y) :
    c.draw_line l =
      (⟨c.width, c.height, c.cells, c.previous_states ++ [c.cells]⟩,
        some PyError.notImplementedError) ∧
    Canvas.undo (c.draw_line l).1 = c := by
  have hb : (c.point_is_out_of_bound' l.from_point ||
      c.point_is_out_of_bound' l.to_point) = false := by
    rw [Bool.or_eq_false_iff]
    exact ⟨(point_is_out_of_bound_eq_false_iff c _).mpr hf,
      (point_is_out_of_bound_eq_false_iff c _).mpr ht⟩
  have hgp : l.get_points = Except.error PyError.notImplementedError := by
    unfold Line.get_points Line.is_horizontal' Line.is_vertical'
    simp [hx, hy]
  have hcall : c.draw_line l =
      (⟨c.width, c.height, c.cells, c.previous_states ++ [c.cells]⟩,
        some PyError.notImplementedError) := by
    rw [Canvas.draw_line, if_neg (by simp [hb])]
    simp only [Canvas.save_state', Canvas.draw_line', hgp]
  refine ⟨hcall, ?_⟩
  rw [hcall]
  exact undo_save_state c c.cells

/-- Witness for C10: on a 3x3 canvas, drawing the diagonal line
(0,0)→(1,2) raises the geometry error, leaves the cells untouched, pushes
one snapshot, and the following undo restores the fresh canvas. -/
theorem c10_witness :
    Canvas.draw_line (Canvas.init 3 3) ⟨⟨0, 0⟩, ⟨1, 2⟩⟩ =
      (⟨3, 3, (Canvas.init 3 3).cells, [(Canvas.init 3 3).cells]⟩,
        some PyError.notImplementedError) ∧
    Canvas.undo (Canvas.draw_line (Canvas.init 3 3) ⟨⟨0, 0⟩, ⟨1, 2⟩⟩).1 = Canvas.init 3 3 :=
  c10_diagonal_line_pushes_snapshot (Canvas.init 3 3) ⟨⟨0, 0⟩, ⟨1, 2⟩⟩
    (by decide) (by decide) (by decide) (by decide)

lemma get_points_mem_bounds (c : Canvas) (P Q : Point)
    (hP : inCanvasBounds c P) (hQ : inCanvasBounds c Q) :
    ∀ pts, (Line.mk P Q).get_points = Except.ok pts → ∀ p ∈ pts, inCanvasBounds c p := by
  obtain ⟨hP1, hP2, hP3, hP4⟩ := hP
  obtain ⟨hQ1, hQ2, hQ3, hQ4⟩ := hQ
  intro pts hpts p hp
  by_cases hx : P.x = Q.x
  · have heq : (Line.mk P Q).get_points =
        Except.ok ((intRange P.y (Q.y + 1)).map (fun y => ⟨P.x, y⟩)) := by
      unfold Line.get_points
      rw [if_pos]
      exact decide_eq_true hx
    rw [heq] at hpts
    injection hpts with hpts
    subst hpts
    rw [List.mem_map] at hp
    obtain ⟨y, hy, rfl⟩ := hp
    rw [mem_intRange] at hy
    exact ⟨hP1, hP2, by dsimp only; omega, by dsimp only; omega⟩
  · by_cases hy : P.y = Q.y
    · have heq : (Line.mk P Q).get_points =
          Except.ok ((intRange P.x (Q.x + 1)).map (fun x => ⟨x, P.y⟩)) := by
        unfold Line.get_points
        rw [if_neg (by simp [Line.is_horizontal', hx]), if_pos]
        exact decide_eq_true hy
      rw [heq] at hpts
      injection hpts with hpts
      subst hpts
      rw [List.mem_map] at hp
      obtain ⟨x, hxm, rfl⟩ := hp
      rw [mem_intRange] at hxm
      exact ⟨by dsimp only; omega, by dsimp only; omega, hP3, hP4⟩
    · have heq : (Line.mk P Q).get_points = Except.error PyError.notImplementedError := by
        unfold Line.get_points
        rw [if_neg (by simp [Line.is_horizontal', hx]),
          if_neg (by simp [Line.is_vertical', hy])]
      rw [heq] at hpts
      exact absurd hpts (by simp)

lemma rectangle_line_points_in_bounds (c : Canvas) (r : Rectangle)
    (h1 : inCanvasBounds c r.top_left_point)
    (h2 : inCanvasBounds c r.bottom_right_point) :
    ∀ l ∈ r.get_lines, ∀ pts, l.get_points = Except.ok pts →
      ∀ p ∈ pts, inCanvasBounds c p := by
  obtain ⟨ha1, ha2, ha3, ha4⟩ := h1
  obtain ⟨hb1, hb2, hb3, hb4⟩ := h2
  intro l hl
  simp only [Rectangle.get_lines, List.mem_cons, List.not_mem_nil, or_false] at hl
  rcases hl with rfl | rfl | rfl | rfl
  · exact get_points_mem_bounds c _ _ ⟨ha1, ha2, ha3, ha4⟩ ⟨hb1, hb2, ha3, ha4⟩
  · exact get_points_mem_bounds c _ _ ⟨ha1, ha2, ha3, ha4⟩ ⟨ha1, ha2, hb3, hb4⟩
  · exact get_points_mem_bounds c _ _ ⟨hb1, hb2, ha3, ha4⟩ ⟨hb1, hb2, hb3, hb4⟩
  · exact get_points_mem_bounds c _ _ ⟨ha1, ha2, hb3, hb4⟩ ⟨hb1, hb2, hb3, hb4⟩

/-- C8 counterexample: the claim asserts the existence of a rectangle whose
two supplied corners are inside `[0,W)x[0,H)` while draw_rectangle still
attempts to write a cell outside those bounds through one of the four
derived lines; no such rectangle exists - the derived corners reuse the two
checked coordinates componentwise and the line points interpolate between
them, so every written point stays inside the checked bounds. -/
theorem c8_no_oob_write_from_in_bounds_corners :
    ¬ ∃ (c : Canvas) (r : Rectangle), inCanvasBounds c r.top_left_point ∧
      inCanvasBounds c r.bottom_right_point ∧
      ∃ l ∈ r.get_lines, ∃ pts, l.get_points = Except.ok pts ∧
        ∃ p ∈ pts, ¬ inCanvasBounds c p := by
  rintro ⟨c, r, h1, h2, l, hl, pts, hpts, p, hp, hnb⟩
  exact hnb (rectangle_line_points_in_bounds c r h1 h2 l hl pts hpts p hp)

/-- C8 (amended): draw_rectangle bounds-checks only the two supplied corner
points and not the individual points of the four derived lines, but for
every rectangle whose two supplied corners are inside `[0,W)x[0,H)`, every
point of every derived line - every cell the call attempts to write - also
lies inside `[0,W)x[0,H)`. -/
theorem c8_rectangle_derived_lines_in_bounds (c : Canvas) (r : Rectangle)
    (h1 : inCanvasBounds c r.top_left_point)
    (h2 : inCanvasBounds c r.bottom_right_point) :
    ∀ l ∈ r.get_lines, ∀ pts, l.get_points = Except.ok pts →
      ∀ p ∈ pts, inCanvasBounds c p :=
  rectangle_line_points_in_bounds c r h1 h2

/-- Witness for the amended C8: on a 6x6 canvas with corners (1,1) and
(5,5), the point (3,1) of the first derived line is inside the bounds. -/
theorem c8_witness : inCanvasBounds (Canvas.init 6 6) ⟨3, 1⟩ :=
  c8_rectangle_derived_lines_in_bounds (Canvas.init 6 6) ⟨⟨1, 1⟩, ⟨5, 5⟩⟩
    (by decide) (by decide) ⟨⟨1, 1⟩, ⟨5, 1⟩⟩ (by decide) _ rfl ⟨3, 1⟩ (by decide)

/-- C9 counterexample: the claim says every invalid width/height pair -
explicitly including non-positive values - fails at construction; in fact
`Grid(0, 5)` and `Grid(-3, 4)` succeed, because `int()` accepts any
integer, and a canvas object is produced. -/
theorem c9_nonpositive_dimensions_accepted :
    Canvas.init_py (PyVal.int 0) (PyVal.int 5) = Except.ok (Canvas.init 0 5) ∧
    Canvas.init_py (PyVal.int (-3)) (PyVal.int 4) = Except.ok (Canvas.init (-3) 4) :=
  ⟨rfl, rfl⟩

/-- C9 (amended): construction coerces both arguments with `int()`:
arguments that `int()` cannot coerce (non-numeric strings) fail at
construction with ValueError and produce no grid - a bad width raises
before the height is examined, and a bad height raises for any integer
width - while any integer arguments, including zero and negative values,
are accepted and produce a grid with those dimensions. -/
theorem c9_init_int_coercion :
    (∀ n m : Int, Canvas.init_py (PyVal.int n) (PyVal.int m) = Except.ok (Canvas.init n m)) ∧
    (∀ (s : String) (v : PyVal), py_int_of_string s = none →
      Canvas.init_py (PyVal.str s) v = Except.error PyError.valueError) ∧
    (∀ (n : Int) (s : String), py_int_of_string s = none →
      Canvas.init_py (PyVal.int n) (PyVal.str s) = Except.error PyError.valueError) := by
  refine ⟨fun n m => rfl, ?_, ?_⟩
  · intro s v hs
    simp [Canvas.init_py, py_int, hs]
  · intro n s hs
    simp [Canvas.init_py, py_int, hs]

/-- Witness for the amended C9: construction with a non-numeric width or
height raises ValueError. -/
theorem c9_witness :
    Canvas.init_py (PyVal.str "hi") (PyVal.int 5) = Except.error PyError.valueError ∧
    Canvas.init_py (PyVal.int 5) (PyVal.str "2x") = Except.error PyError.valueError := by
  obtain ⟨-, h2, h3⟩ := c9_init_int_coercion
  exact ⟨h2 "hi" (PyVal.int 5) (by decide), h3 5 "2x" (by decide)⟩

/-- Witness for C5: the equal-x line (1,1)→(1,5) and the equal-y line
(1,1)→(5,1) both yield 5 points. -/
theorem c5_witness :
    (Line.get_points ⟨⟨1, 1⟩, ⟨1, 5⟩⟩).map List.length = Except.ok 5 ∧
    (Line.get_points ⟨⟨1, 1⟩, ⟨5, 1⟩⟩).map List.length = Except.ok 5 := by
  constructor
  · obtain ⟨pts, h1, h2, -, -⟩ := (c5_get_points_axis_aligned ⟨⟨1, 1⟩, ⟨1, 5⟩⟩).1 rfl
    rw [h1, Except.map, h2 (by decide)]
    rfl
  · obtain ⟨pts, h1, h2, -, -⟩ := (c5_get_points_axis_aligned ⟨⟨1, 1⟩, ⟨5, 1⟩⟩).2 rfl
    rw [h1, Except.map, h2 (by decide)]
    rfl
